import Mathlib

/-!
Verification development for the QML semantic checker (qmljscheck.cpp):
source locations, diagnostic messages, the color-string parser, the
value-compatibility visitor (AssignmentCheck), the scope-chain member
resolver (Check::checkScopeObjectMember) and the AST tree walker (Check).

The checker code itself is translated from the source file.  External
collaborators that are not part of the source slice (the interpreter value
model, the expression evaluator, the scope builder, Qt color / URL / file
utilities) are modelled from the specification, as marked in their doc
comments.  Possible crashes of the C++ code (null-pointer dereferences and
out-of-range character accesses) are made explicit as `Fault` values.
-/

/-- Source span: offset, length, line, column (AST::SourceLocation). -/
structure SourceLocation where
  offset : Nat
  length : Nat
  startLine : Nat
  startColumn : Nat
deriving DecidableEq

/-- C++ SourceLocation::begin(). -/
def SourceLocation.beginOffset (l : SourceLocation) : Nat := l.offset

/-- C++ SourceLocation::end(). -/
def SourceLocation.endOffset (l : SourceLocation) : Nat := l.offset + l.length

/-- QmlJS::locationFromRange: span from the start of `s` to the end of `e`. -/
def locationFromRange (s e : SourceLocation) : SourceLocation :=
  { offset := s.offset
    length := e.endOffset - s.beginOffset
    startLine := s.startLine
    startColumn := s.startColumn }

/-- Diagnostic severity (DiagnosticMessage::Kind). -/
inductive DiagKind where
  | Error
  | Warning
deriving DecidableEq

/-- A diagnostic produced by the checker. -/
structure DiagnosticMessage where
  kind : DiagKind
  loc : SourceLocation
  message : String
deriving DecidableEq

/-- QmlJS::errorMessage helper. -/
def errorMessage (loc : SourceLocation) (message : String) : DiagnosticMessage :=
  { kind := .Error, loc := loc, message := message }

/-- Warning-message factory (Check::warning body). -/
def warningMessage (loc : SourceLocation) (message : String) : DiagnosticMessage :=
  { kind := .Warning, loc := loc, message := message }

/-- The caller of AssignmentCheck appends the returned message only when its
text is non-empty (qmljscheck.cpp lines 309-310). -/
def DiagnosticMessage.toList (m : DiagnosticMessage) : List DiagnosticMessage :=
  if m.message = "" then [] else [m]

/-! ## Color model (QColor, modelled from the spec) -/

/-- Modelled from the spec: a color value with an explicit validity flag
("implementers must expose an is-valid query"), 8-bit RGB channels and an
alpha channel.  Stands in for the external Qt QColor class. -/
structure QColor where
  valid : Bool
  red : Nat
  green : Nat
  blue : Nat
  alpha : Nat
deriving DecidableEq

/-- Default-constructed QColor: explicitly invalid. -/
def QColor.invalidColor : QColor :=
  { valid := false, red := 0, green := 0, blue := 0, alpha := 255 }

/-- Value of one hexadecimal digit, or none. -/
def hexDigitVal (c : Char) : Option Nat :=
  if '0' ≤ c ∧ c ≤ '9' then some (c.toNat - 48)
  else if 'a' ≤ c ∧ c ≤ 'f' then some (c.toNat - 87)
  else if 'A' ≤ c ∧ c ≤ 'F' then some (c.toNat - 55)
  else none

/-- Accumulating hexadecimal parser over a digit list. -/
def parseHexAux : List Char → Nat → Option Nat
  | [], acc => some acc
  | c :: rest, acc =>
    match hexDigitVal c with
    | none => none
    | some d => parseHexAux rest (16 * acc + d)

/-- Modelled from the spec: parse a non-empty list of characters as a
hexadecimal number (the "2-digit hexadecimal alpha value" read with
base 16); fails when any character is not a hex digit. -/
def parseHexDigits (cs : List Char) : Option Nat :=
  match cs with
  | [] => none
  | _ => parseHexAux cs 0

/-- Modelled from the spec: the table of named colors known to the external
color facility (an excerpt of the SVG color keywords; no name starts with
the hash character). -/
def svgColorTable : List (String × Nat × Nat × Nat) :=
  [("black", 0, 0, 0), ("white", 255, 255, 255), ("red", 255, 0, 0),
   ("green", 0, 128, 0), ("blue", 0, 0, 255), ("yellow", 255, 255, 0),
   ("cyan", 0, 255, 255), ("magenta", 255, 0, 255), ("gray", 128, 128, 128),
   ("orange", 255, 165, 0)]

/-- Modelled from the spec: QColor::isValidColor — a name is syntactically
valid when it is a hash sign followed by 3, 6, 9 or 12 hexadecimal digits,
or a known named color. -/
def isValidColorName (cs : List Char) : Bool :=
  match cs with
  | '#' :: rest =>
    decide (rest.length = 3 ∨ rest.length = 6 ∨ rest.length = 9 ∨ rest.length = 12)
      && rest.all (fun c => (hexDigitVal c).isSome)
  | _ => (svgColorTable.find? (fun e => e.1.data == cs)).isSome

/-- Modelled from the spec: QColor::setNamedColor — resolve a syntactically
valid color name to a color (hash forms scale each channel down to 8 bits;
named colors come from the table); an invalid name yields an invalid color. -/
def namedColorValue (cs : List Char) : QColor :=
  match cs with
  | '#' :: rest =>
    match parseHexDigits rest with
    | none => QColor.invalidColor
    | some v =>
      if rest.length = 3 then
        { valid := true, red := 17 * (v / 256), green := 17 * (v / 16 % 16),
          blue := 17 * (v % 16), alpha := 255 }
      else if rest.length = 6 then
        { valid := true, red := v / 65536, green := v / 256 % 256,
          blue := v % 256, alpha := 255 }
      else if rest.length = 9 then
        { valid := true, red := v / 16777216 / 16, green := v / 4096 % 4096 / 16,
          blue := v % 4096 / 16, alpha := 255 }
      else if rest.length = 12 then
        { valid := true, red := v / 4294967296 / 256, green := v / 65536 % 65536 / 256,
          blue := v % 65536 / 256, alpha := 255 }
      else QColor.invalidColor
  | _ =>
    match svgColorTable.find? (fun e => e.1.data == cs) with
    | some (_, r, g, b) => { valid := true, red := r, green := g, blue := b, alpha := 255 }
    | none => QColor.invalidColor

/-- QmlJS::toQColor, translated from the source: a 9-character string that
starts with a hash has characters 2-3 parsed as hexadecimal alpha; on
success the name formed from character 1 plus the rightmost 6 characters is
validated and resolved, and its alpha channel overridden.  Any other string
is validated and resolved as a whole.  Note that when the alpha parse fails
the source returns the default (invalid) color without trying whole-string
validation. -/
def toQColor (qmlColorString : String) : QColor :=
  let cs := qmlColorString.data
  if cs.length = 9 ∧ cs.head? = some '#' then
    match parseHexDigits ((cs.drop 1).take 2) with
    | some alpha =>
      let name := cs.take 1 ++ cs.drop 3
      if isValidColorName name then
        { namedColorValue name with alpha := alpha }
      else QColor.invalidColor
    | none => QColor.invalidColor
  else
    if isValidColorName cs then namedColorValue cs else QColor.invalidColor

/-- Modelled from the spec: the Section 6 "bit-exact contract" for color
parsing, stated as written there — in the 9-character hash case the alpha
must parse, and "otherwise (any other length, or does not start with a hash
in the 9-char case, or alpha failed to parse)" the whole string is validated
directly. -/
def toQColorSpec (s : String) : QColor :=
  let cs := s.data
  if cs.length = 9 ∧ cs.head? = some '#' ∧ (parseHexDigits ((cs.drop 1).take 2)).isSome then
    let alpha := (parseHexDigits ((cs.drop 1).take 2)).getD 0
    let name := '#' :: cs.drop 3
    if isValidColorName name then
      { namedColorValue name with alpha := alpha }
    else QColor.invalidColor
  else
    if isValidColorName cs then namedColorValue cs else QColor.invalidColor


/-! ## Interpreter value model (modelled from the spec) -/

/-- Modelled from the spec: the polymorphic result of evaluating an
expression or resolving a declared property type (Interpreter::Value).
NumberValue is optionally specialized as an enum value carrying its valid
string keys; StringValue is optionally specialized as a URL-typed string;
ObjectValue has a class name and named members. -/
inductive Value where
  | numberValue
  | qmlEnumValue (keys : List String)
  | booleanValue
  | stringValue
  | urlValue
  | colorValue
  | anchorLineValue
  | undefinedValue
  | objectValue (className : String) (members : List (String × Value))
  | otherValue

/-- Modelled from the spec: Value::asUndefinedValue as a test. -/
def Value.isUndefinedValue : Value → Bool
  | .undefinedValue => true
  | _ => false

/-- Modelled from the spec: Value::asStringValue as a test (a URL-typed
string is a string value). -/
def Value.isStringValue : Value → Bool
  | .stringValue => true
  | .urlValue => true
  | _ => false

/-- Modelled from the spec: Value::asNumberValue as a test (an enum value is
a number value). -/
def Value.isNumberValue : Value → Bool
  | .numberValue => true
  | .qmlEnumValue _ => true
  | _ => false

/-- Modelled from the spec: Value::asAnchorLineValue as a test. -/
def Value.isAnchorLineValue : Value → Bool
  | .anchorLineValue => true
  | _ => false

/-- Modelled from the spec: value_cast to ObjectValue, yielding the class
name and the member bag. -/
def Value.asObjectValue : Value → Option (String × List (String × Value))
  | .objectValue c m => some (c, m)
  | _ => none

/-- A scope object: an object-like property bag (class name plus members). -/
abbrev ObjVal := String × List (String × Value)

/-- Modelled from the spec: ObjectValue::lookupMember — look a member up by
name in the object's member bag. -/
def lookupMember : List (String × Value) → String → Option Value
  | [], _ => none
  | (k, v) :: rest, n => if k = n then some v else lookupMember rest n

/-- The first-segment search of Check::checkScopeObjectMember: walk the
scope-object list from most specific (last) to least specific (first) and
return the first member found. -/
def lookupScope : List ObjVal → String → Option Value
  | [], _ => none
  | obj :: rest, n =>
    match lookupScope rest n with
    | some v => some v
    | none => lookupMember obj.2 n

/-- Modelled from the spec: the scope chain held by the linked Context — the
ordered scope-object list plus the optional attached-types bag (qmlTypes). -/
structure ScopeChain where
  qmlScopeObjects : List ObjVal
  qmlTypes : Option ObjVal

/-! ## AST model -/

/-- One segment of a qualified id: its (possibly missing, after parser error
recovery) name and its identifier token. -/
structure UiQualifiedIdSeg where
  name : Option String
  identifierToken : SourceLocation

/-- A non-null qualified id: the first segment plus the chain of further
dotted segments (AST::UiQualifiedId).  A null UiQualifiedId pointer is an
`Option.none` at the use sites. -/
structure UiQualifiedId where
  name : Option String
  identifierToken : SourceLocation
  next : List UiQualifiedIdSeg

mutual
/-- Expression nodes relevant to the checker.  Identifier and member
accesses carry no children the checker descends into (their visit methods
are the disabled resolution path that returns immediately); a function
literal carries the body the checker traverses under a fresh scope. -/
inductive Exp where
  | identifierExpr (name : Option String)
  | stringLit (value : String)
  | numericLit
  | trueLit
  | falseLit
  | unaryMinus (sub : Exp)
  | fieldMember (base : Exp) (name : Option String)
  | functionExpr (body : StmtList)
  | otherExp (children : ExpList)

inductive ExpList where
  | nil
  | cons (head : Exp) (tail : ExpList)

/-- Statement nodes.  Every statement carries its first and last source
locations (firstSourceLocation / lastSourceLocation). -/
inductive Stmt where
  | expressionStatement (firstLoc lastLoc : SourceLocation) (expr : Exp)
  | functionDeclStmt (firstLoc lastLoc : SourceLocation) (body : StmtList)
  | otherStmt (firstLoc lastLoc : SourceLocation) (children : StmtList)

inductive StmtList where
  | nil
  | cons (head : Stmt) (tail : StmtList)
end

/-- First source location of a statement. -/
def Stmt.firstLoc : Stmt → SourceLocation
  | .expressionStatement l _ _ => l
  | .functionDeclStmt l _ _ => l
  | .otherStmt l _ _ => l

/-- Last source location of a statement. -/
def Stmt.lastLoc : Stmt → SourceLocation
  | .expressionStatement _ l _ => l
  | .functionDeclStmt _ l _ => l
  | .otherStmt _ l _ => l

mutual
/-- QML object members the checker visits: object definitions, object
bindings, script bindings, array bindings, and other member kinds the
walker passes over. -/
inductive UiObjectMember where
  | uiObjectDefinition (qualifiedTypeNameId : Option UiQualifiedId)
      (initMembers : UiObjectMemberList)
  | uiObjectBinding (qualifiedId : Option UiQualifiedId)
      (qualifiedTypeNameId : Option UiQualifiedId) (initMembers : UiObjectMemberList)
  | uiScriptBinding (qualifiedId : Option UiQualifiedId) (statement : Option Stmt)
  | uiArrayBinding (qualifiedId : Option UiQualifiedId) (members : UiObjectMemberList)
  | otherMember

inductive UiObjectMemberList where
  | nil
  | cons (head : UiObjectMember) (tail : UiObjectMemberList)
end

/-- The root program node. -/
structure UiProgram where
  members : UiObjectMemberList

/-- The parsed document: AST root (possibly absent) and the document path. -/
structure Doc where
  ast : Option UiProgram
  path : String

/-! ## Checker state and environment -/

/-- An abnormal termination of the C++ checker: dereferencing a null
pointer, or reading a character position out of range. -/
inductive Fault where
  | nullDeref
  | charOutOfRange
deriving DecidableEq

/-- Modelled from the spec: the external collaborators of one check run,
injected as black-box functions — the type lookup of the linked Context,
the expression Evaluator (which "returns a value handle or none"), the
scope computed by ScopeBuilder::push for an entered node, the URL facility
and the file-existence check, plus the option suppressing unknown-type
errors. -/
structure CheckEnv where
  lookupType : UiQualifiedId → Bool
  eval : ScopeChain → Exp → Option Value
  pushScope : ScopeChain → ScopeChain
  urlIsValid : String → Bool
  urlIsEmpty : String → Bool
  urlToLocalFile : String → String
  urlIsRelative : String → Bool
  fileExists : String → Bool
  ignoreTypeErrors : Bool

/-- The mutable state of one Check instance during a run: the accumulated
diagnostics, the scope chain of the (copied) context, and the stack of
scope-chain states saved by the scope builder. -/
structure CheckState where
  messages : List DiagnosticMessage
  chain : ScopeChain
  savedChains : List ScopeChain

/-- Append one diagnostic (Check::error / Check::warning). -/
def appendMsg (st : CheckState) (m : DiagnosticMessage) : CheckState :=
  { st with messages := st.messages ++ [m] }

/-- Modelled from the spec: ScopeBuilder::push — save the current scope
chain and enter the scope the builder computes for the node. -/
def scopePush (env : CheckEnv) (st : CheckState) : CheckState :=
  { st with savedChains := st.chain :: st.savedChains,
            chain := env.pushScope st.chain }

/-- Modelled from the spec: ScopeBuilder::pop — restore the scope chain
saved by the matching push ("must leave it exactly as found"). -/
def scopePop (st : CheckState) : CheckState :=
  match st.savedChains with
  | [] => st
  | c :: rest => { st with chain := c, savedChains := rest }

/-! ## Scope-chain member resolver -/

/-- The member-chain loop of Check::checkScopeObjectMember (lines 430-455):
walk the remaining dotted segments, requiring an object-typed current value
at each step; `prevName` and `prevTok` are the name and token of the segment
that produced the current value. -/
def memberLoop (prevName : String) (prevTok : SourceLocation) (value : Option Value) :
    List UiQualifiedIdSeg → Option Value × List DiagnosticMessage
  | [] => (value, [])
  | seg :: rest =>
    match value.bind Value.asObjectValue with
    | none =>
      (none, [errorMessage prevTok ("\x27" ++ prevName ++ "\x27 does not have members")])
    | some (className, members) =>
      match seg.name with
      | none => (none, [])
      | some pname =>
        match lookupMember members pname with
        | none =>
          (none, [errorMessage seg.identifierToken
            ("\x27" ++ pname ++ "\x27 is not a member of \x27" ++ className ++ "\x27")])
        | some v => memberLoop pname seg.identifierToken (some v) rest

/-- Check::checkScopeObjectMember: resolve a qualified id against the scope
objects of the current scope chain, returning the resolved value (or none)
together with the diagnostics the call appends. -/
def checkScopeObjectMember (chain : ScopeChain) (id : Option UiQualifiedId) :
    Option Value × List DiagnosticMessage :=
  if chain.qmlScopeObjects.isEmpty then (none, [])
  else
    match id with
    | none => (none, [])
    | some q =>
      match q.name with
      | none => (none, [])
      | some propertyName =>
        if propertyName = "id" ∧ q.next.isEmpty then (none, [])
        else
          let isAttachedProperty := !(propertyName.isEmpty) && propertyName.front.isUpper
          let scopeObjects :=
            if isAttachedProperty then
              match chain.qmlTypes with
              | some qmlTypes => chain.qmlScopeObjects ++ [qmlTypes]
              | none => chain.qmlScopeObjects
            else chain.qmlScopeObjects
          if scopeObjects.isEmpty then (none, [])
          else
            let value := lookupScope scopeObjects propertyName
            let msgs :=
              match value with
              | none =>
                [errorMessage q.identifierToken
                  ("\x27" ++ propertyName ++ "\x27 is not a valid property name")]
              | some _ => []
            if isAttachedProperty then (none, msgs)
            else
              let res := memberLoop propertyName q.identifierToken value q.next
              (res.1, msgs ++ res.2)

/-! ## Value-compatibility visitor (AssignmentCheck) -/

/-- AssignmentCheck::visit(const StringValue *): literal-kind checks, then —
when the visited value pointer is present and URL-typed — the URL validity
and file-existence checks, which may overwrite the message.  The value
pointer is none when this is the fallback call from the ColorValue visit. -/
def visitStringValue (env : CheckEnv) (docPath : String) (base : DiagnosticMessage)
    (value : Option Value) (ast : Exp) : DiagnosticMessage :=
  let m1 :=
    match ast with
    | .numericLit => { base with message := "string value expected" }
    | .unaryMinus .numericLit => { base with message := "string value expected" }
    | .trueLit => { base with message := "string value expected" }
    | .falseLit => { base with message := "string value expected" }
    | _ => base
  match value with
  | some .urlValue =>
    match ast with
    | .stringLit s =>
      if !(env.urlIsValid s) && !(env.urlIsEmpty s) then
        { m1 with message := "not a valid url" }
      else
        let fileName := env.urlToLocalFile s
        if fileName.isEmpty then m1
        else
          let fn := if env.urlIsRelative s then docPath ++ "/" ++ fileName else fileName
          if !(env.fileExists fn) then
            { m1 with message := "file or directory does not exist" }
          else m1
    | _ => m1
  | _ => m1

/-- AssignmentCheck::operator() plus the visit dispatch on the dynamic type
of the declared (left-hand) value.  The result message starts as an Error
with empty text at the binding's location; an empty text means "no problem".
When the declared value is absent no check runs.  The enum and anchor-line
visits read the evaluated right-hand value without a null check: with an
absent right-hand value they fault. -/
def assignmentCheck (env : CheckEnv) (docPath : String) (location : SourceLocation)
    (lhsValue rhsValue : Option Value) (ast : Exp) : Except Fault DiagnosticMessage :=
  let base : DiagnosticMessage := { kind := .Error, loc := location, message := "" }
  match lhsValue with
  | none => .ok base
  | some lhs =>
    match lhs with
    | .qmlEnumValue keys =>
      match ast with
      | .stringLit s =>
        if !(keys.contains s) then .ok { base with message := "unknown value for enum" }
        else .ok base
      | _ =>
        match rhsValue with
        | none => .error .nullDeref
        | some r =>
          if r.isUndefinedValue then
            .ok { base with kind := .Warning, message := "value might be \x27undefined\x27" }
          else if !(r.isStringValue) && !(r.isNumberValue) then
            .ok { base with message := "enum value is not a string or number" }
          else .ok base
    | .numberValue =>
      match ast with
      | .trueLit => .ok { base with message := "numerical value expected" }
      | .falseLit => .ok { base with message := "numerical value expected" }
      | _ => .ok base
    | .booleanValue =>
      match ast with
      | .stringLit _ => .ok { base with message := "boolean value expected" }
      | .numericLit => .ok { base with message := "boolean value expected" }
      | .unaryMinus .numericLit => .ok { base with message := "boolean value expected" }
      | _ => .ok base
    | .stringValue => .ok (visitStringValue env docPath base (some .stringValue) ast)
    | .urlValue => .ok (visitStringValue env docPath base (some .urlValue) ast)
    | .colorValue =>
      match ast with
      | .stringLit s =>
        if !((toQColor s).valid) then .ok { base with message := "not a valid color" }
        else .ok base
      | _ => .ok (visitStringValue env docPath base none ast)
    | .anchorLineValue =>
      match rhsValue with
      | none => .error .nullDeref
      | some r =>
        if !(r.isAnchorLineValue || r.isUndefinedValue) then
          .ok { base with message := "expected anchor line" }
        else .ok base
    | _ => .ok base

/-! ## Script-binding visit -/

/-- The tail of Check::visit(UiScriptBinding *) after the id special case
(lines 296-315): resolve the left-hand property; when it resolves and the
statement is an expression statement, evaluate the right-hand expression
externally and run the compatibility check, appending a non-empty message. -/
def scriptBindingRest (env : CheckEnv) (docPath : String) (st : CheckState)
    (q : UiQualifiedId) (statement : Option Stmt) : Except Fault (CheckState × Bool) :=
  let res := checkScopeObjectMember st.chain (some q)
  let st1 := { st with messages := st.messages ++ res.2 }
  match res.1 with
  | none => .ok (st1, true)
  | some lhsValue =>
    match statement with
    | some (.expressionStatement fl ll e) =>
      let rhsValue := env.eval st1.chain e
      let loc := locationFromRange fl ll
      match assignmentCheck env docPath loc (some lhsValue) rhsValue e with
      | .error f => .error f
      | .ok m => .ok ({ st1 with messages := st1.messages ++ m.toList }, true)
    | _ => .ok (st1, true)

/-- The lower-case test on the id text (lines 290-293): an empty id or one
whose first character is not lower case is an error, returning false;
otherwise control falls through to the property-resolution tail. -/
def idLowerCaseTail (env : CheckEnv) (docPath : String) (st : CheckState)
    (q : UiQualifiedId) (loc : SourceLocation) (id : String)
    (statement : Option Stmt) : Except Fault (CheckState × Bool) :=
  if id.isEmpty || !(id.front.isLower) then
    .ok (appendMsg st (errorMessage loc ("ids must be lower case")), false)
  else
    scriptBindingRest env docPath st q statement

/-- Check::visit(UiScriptBinding *): the qualified id's first name is read
without a null check (line 266) — a missing id or name faults.  The single
segment `id` is special-cased; every other binding goes through the
resolver and the compatibility check.  The boolean result tells the walker
whether to descend into the statement. -/
def visitUiScriptBinding (env : CheckEnv) (docPath : String) (st : CheckState)
    (qualifiedId : Option UiQualifiedId) (statement : Option Stmt) :
    Except Fault (CheckState × Bool) :=
  match qualifiedId with
  | none => .error .nullDeref
  | some q =>
    match q.name with
    | none => .error .nullDeref
    | some nm =>
      if nm = "id" ∧ q.next.isEmpty then
        match statement with
        | none => .ok (st, false)
        | some s =>
          let loc := locationFromRange s.firstLoc s.lastLoc
          match s with
          | .expressionStatement _ _ e =>
            match e with
            | .identifierExpr none => .error .nullDeref
            | .identifierExpr (some idText) =>
              idLowerCaseTail env docPath st q loc idText statement
            | .stringLit sv =>
              let stW := appendMsg st
                (warningMessage loc ("using string literals for ids is discouraged"))
              idLowerCaseTail env docPath stW q loc sv statement
            | _ => .ok (appendMsg st (errorMessage loc ("expected id")), false)
          | _ => .ok (appendMsg st (errorMessage loc ("expected id")), false)
      else
        scriptBindingRest env docPath st q statement

/-! ## Tree walker -/

mutual
/-- Generic traversal over expressions, as driven by Node::accept with the
Check visitor: identifier and member visits are the disabled resolution
path (return immediately / descend into the base), a function literal is
visited under a fresh scope (Check::visit(FunctionExpression *)), and all
other kinds just descend. -/
def checkExp (env : CheckEnv) (st : CheckState) : Exp → Except Fault CheckState
  | .identifierExpr _ => .ok st
  | .stringLit _ => .ok st
  | .numericLit => .ok st
  | .trueLit => .ok st
  | .falseLit => .ok st
  | .unaryMinus sub => checkExp env st sub
  | .fieldMember base _ => checkExp env st base
  | .functionExpr body =>
    match checkStmtList env (scopePush env st) body with
    | .error f => .error f
    | .ok st2 => .ok (scopePop st2)
  | .otherExp children => checkExpList env st children

def checkExpList (env : CheckEnv) (st : CheckState) : ExpList → Except Fault CheckState
  | .nil => .ok st
  | .cons h t =>
    match checkExp env st h with
    | .error f => .error f
    | .ok st1 => checkExpList env st1 t

/-- Generic traversal over statements; a function declaration is handled by
Check::visit(FunctionDeclaration *), which forwards to the function
expression visit (push scope, traverse body, pop). -/
def checkStmt (env : CheckEnv) (st : CheckState) : Stmt → Except Fault CheckState
  | .expressionStatement _ _ e => checkExp env st e
  | .functionDeclStmt _ _ body =>
    match checkStmtList env (scopePush env st) body with
    | .error f => .error f
    | .ok st2 => .ok (scopePop st2)
  | .otherStmt _ _ children => checkStmtList env st children

def checkStmtList (env : CheckEnv) (st : CheckState) : StmtList → Except Fault CheckState
  | .nil => .ok st
  | .cons h t =>
    match checkStmt env st h with
    | .error f => .error f
    | .ok st1 => checkStmtList env st1 t
end

/-- The part of Check::visitQmlObject before descending into the
initializer members (lines 234-256).  The type id's first name is read and
its first character tested without null or emptiness checks — a missing
type id, a missing name or an empty name faults.  A lower-case single
segment is a grouped-property reference: it is resolved and the visit
returns without descending (Sum.inl).  Otherwise a scope frame is pushed
and the type is looked up; an unknown type is reported (unless suppressed)
and the scope-object list cleared.  Sum.inr carries the state under which
the walker must traverse the initializer members and then pop. -/
def visitQmlObjectPre (env : CheckEnv) (st : CheckState) (typeId : Option UiQualifiedId) :
    Except Fault (Sum CheckState CheckState) :=
  match typeId with
  | none => .error .nullDeref
  | some tid =>
    match tid.name with
    | none => .error .nullDeref
    | some nm =>
      if nm.isEmpty then .error .charOutOfRange
      else if nm.front.isLower && tid.next.isEmpty then
        let res := checkScopeObjectMember st.chain (some tid)
        .ok (.inl { st with messages := st.messages ++ res.2 })
      else
        let st1 := scopePush env st
        if env.lookupType tid then .ok (.inr st1)
        else
          let st2 :=
            if !env.ignoreTypeErrors then
              appendMsg st1 (errorMessage tid.identifierToken ("unknown type"))
            else st1
          .ok (.inr { st2 with chain := { st2.chain with qmlScopeObjects := [] } })

mutual
/-- Dispatch of the tree walker over one QML object member, mirroring
Check::visit(UiObjectDefinition *), Check::visit(UiObjectBinding *),
Check::visit(UiScriptBinding *) (with the descent the walker performs when
that visit returns true) and Check::visit(UiArrayBinding *). -/
def checkMember (env : CheckEnv) (docPath : String) (st : CheckState) :
    UiObjectMember → Except Fault CheckState
  | .uiObjectDefinition typeId initMembers =>
    match visitQmlObjectPre env st typeId with
    | .error f => .error f
    | .ok (.inl st1) => .ok st1
    | .ok (.inr st2) =>
      match checkMemberList env docPath st2 initMembers with
      | .error f => .error f
      | .ok st3 => .ok (scopePop st3)
  | .uiObjectBinding qid typeId initMembers =>
    let res := checkScopeObjectMember st.chain qid
    let st0 := { st with messages := st.messages ++ res.2 }
    match visitQmlObjectPre env st0 typeId with
    | .error f => .error f
    | .ok (.inl st1) => .ok st1
    | .ok (.inr st2) =>
      match checkMemberList env docPath st2 initMembers with
      | .error f => .error f
      | .ok st3 => .ok (scopePop st3)
  | .uiScriptBinding qid stmt =>
    match visitUiScriptBinding env docPath st qid stmt with
    | .error f => .error f
    | .ok (st1, descend) =>
      if descend then
        match stmt with
        | some s => checkStmt env st1 s
        | none => .ok st1
      else .ok st1
  | .uiArrayBinding qid members =>
    let res := checkScopeObjectMember st.chain qid
    checkMemberList env docPath { st with messages := st.messages ++ res.2 } members
  | .otherMember => .ok st

def checkMemberList (env : CheckEnv) (docPath : String) (st : CheckState) :
    UiObjectMemberList → Except Fault CheckState
  | .nil => .ok st
  | .cons h t =>
    match checkMember env docPath st h with
    | .error f => .error f
    | .ok st1 => checkMemberList env docPath st1 t
end

/-- Check::operator(): clear the diagnostic list, traverse the document's
AST, and return the accumulated diagnostics (with the state the run leaves
behind). -/
def checkRun (env : CheckEnv) (st : CheckState) (doc : Doc) :
    Except Fault (List DiagnosticMessage × CheckState) :=
  let st0 := { st with messages := [] }
  match doc.ast with
  | none => .ok (st0.messages, st0)
  | some prog =>
    match checkMemberList env doc.path st0 prog.members with
    | .error f => .error f
    | .ok st1 => .ok (st1.messages, st1)


/-! ## Claim-statement helpers and concrete inputs -/

/-- Classifier used to state C3: is the expression an identifier reference
or a string literal? -/
def Exp.isIdOrStringLit : Exp → Bool
  | .identifierExpr _ => true
  | .stringLit _ => true
  | _ => false

/-- A zero source location used for concrete inputs. -/
def tok0 : SourceLocation := { offset := 0, length := 0, startLine := 0, startColumn := 0 }

/-- A concrete collaborator environment: every type is known, the expression
evaluator yields no value, and the scope builder computes the identity scope. -/
def env0 : CheckEnv := {
  lookupType := fun _ => true
  eval := fun _ _ => none
  pushScope := fun c => c
  urlIsValid := fun _ => true
  urlIsEmpty := fun _ => false
  urlToLocalFile := fun _ => ""
  urlIsRelative := fun _ => false
  fileExists := fun _ => true
  ignoreTypeErrors := false }

/-- State whose scope object declares an anchor-line property x. -/
def stAnchor : CheckState := {
  messages := []
  chain := { qmlScopeObjects := [("Item", [("x", Value.anchorLineValue)])], qmlTypes := none }
  savedChains := [] }

/-- State whose scope object declares a plain number property n. -/
def stNum : CheckState := {
  messages := []
  chain := { qmlScopeObjects := [("Item", [("n", Value.numberValue)])], qmlTypes := none }
  savedChains := [] }

/-- Scope chain whose scope object has an upper-case non-object member Abc. -/
def chainC5 : ScopeChain :=
  { qmlScopeObjects := [("O", [("Abc", Value.stringValue)])], qmlTypes := none }

/-- Scope chain whose scope object has a lower-case non-object member a. -/
def chainC5w : ScopeChain :=
  { qmlScopeObjects := [("O", [("a", Value.stringValue)])], qmlTypes := none }

/-- Scope chain with one memberless scope object. -/
def chainC6 : ScopeChain := { qmlScopeObjects := [("O", [])], qmlTypes := none }

/-- The dotted qualified id a.b. -/
def qidC6 : Option UiQualifiedId :=
  some { name := some "a", identifierToken := tok0,
         next := [{ name := some "b", identifierToken := tok0 }] }

/-- The single-segment qualified id `id`. -/
def qidIdC3 : Option UiQualifiedId :=
  some { name := some "id", identifierToken := tok0, next := [] }

/-- Scope chain with a memberless scope object and an attached-types bag
containing the type Keys. -/
def chainC7 : ScopeChain :=
  { qmlScopeObjects := [("O", [])],
    qmlTypes := some ("T", [("Keys", Value.objectValue ("K") [])]) }

/-- A document with a single object definition of a known type. -/
def docC8 : Doc :=
  { ast := some { members := .cons (.uiObjectDefinition
      (some { name := some "Item", identifierToken := tok0, next := [] }) .nil) .nil },
    path := "" }

/-! ## Helper lemmas -/

theorem isValidColorName_false_of_len9 (cs : List Char)
    (hlen : cs.length = 9) (hhead : cs.head? = some '#') :
    isValidColorName cs = false := by
  cases cs with
  | nil => simp at hhead
  | cons c rest =>
    simp at hhead
    subst hhead
    simp at hlen
    simp [isValidColorName, hlen]

theorem toQColor_eq_spec (s : String) : toQColor s = toQColorSpec s := by
  unfold toQColor toQColorSpec
  by_cases h : s.data.length = 9 ∧ s.data.head? = some '#'
  · rcases h with ⟨hlen, hhead⟩
    cases hp : parseHexDigits ((s.data.drop 1).take 2) with
    | none =>
      simp only [hlen, hhead, hp]
      simp [isValidColorName_false_of_len9 s.data hlen hhead]
    | some a =>
      simp only [hlen, hhead, hp]
      simp only [and_true, true_and, Option.isSome_some, if_pos trivial]
      have htake : s.data.take 1 = ['#'] := by
        cases hc : s.data with
        | nil => rw [hc] at hhead; simp at hhead
        | cons c rest =>
          rw [hc] at hhead
          simp at hhead
          subst hhead
          simp
      simp [htake]
  · simp only [if_neg h]
    have h2 : ¬ (s.data.length = 9 ∧ s.data.head? = some '#' ∧
        (parseHexDigits ((s.data.drop 1).take 2)).isSome = true) := by
      intro hcon
      exact h ⟨hcon.1, hcon.2.1⟩
    simp only [if_neg h2]
theorem uint32_le_90_not_ge_97 (a : UInt32) (h : a ≤ 90) : ¬ (97 ≤ a) := by
  intro hcon
  rw [UInt32.le_def, BitVec.le_def] at h hcon
  have e1 : ((90 : UInt32).toBitVec).toNat = 90 := rfl
  have e2 : ((97 : UInt32).toBitVec).toNat = 97 := rfl
  rw [e1] at h
  rw [e2] at hcon
  omega

theorem isLower_eq_false_of_isUpper (c : Char) (h : c.isUpper = true) : c.isLower = false := by
  unfold Char.isUpper at h
  unfold Char.isLower
  simp only [Bool.and_eq_true, decide_eq_true_eq] at h
  simp only [Bool.and_eq_false_iff, decide_eq_false_iff_not]
  left
  exact uint32_le_90_not_ge_97 c.val h.2

theorem checkScopeObjectMember_single_id (chain : ScopeChain) (tok : SourceLocation) :
    checkScopeObjectMember chain
      (some { name := some "id", identifierToken := tok, next := [] }) = (none, []) := by
  unfold checkScopeObjectMember
  split
  · rfl
  · simp

theorem memberLoop_len_le (pn : String) (pt : SourceLocation) (v : Option Value)
    (segs : List UiQualifiedIdSeg) : (memberLoop pn pt v segs).2.length ≤ 1 := by
  induction segs generalizing pn pt v with
  | nil => simp [memberLoop]
  | cons s r ih =>
    unfold memberLoop
    cases hv : v.bind Value.asObjectValue with
    | none => simp
    | some p =>
      obtain ⟨cn, mem⟩ := p
      dsimp only
      cases hs : s.name with
      | none => simp [hs]
      | some pname =>
        cases hm : lookupMember mem pname with
        | none => simp [hs, hm]
        | some w =>
          simp only [hs, hm]
          exact ih pname s.identifierToken (some w)


/-! ## Scope restoration lemmas -/

theorem scriptBindingRest_restore (env : CheckEnv) (docPath : String) (st : CheckState)
    (q : UiQualifiedId) (statement : Option Stmt) (st' : CheckState) (b : Bool)
    (h : scriptBindingRest env docPath st q statement = .ok (st', b)) :
    st'.chain = st.chain ∧ st'.savedChains = st.savedChains := by
  unfold scriptBindingRest at h
  dsimp only at h
  split at h
  · simp at h; simp [← h.1]
  · split at h
    · split at h
      · simp at h
      · simp at h; simp [← h.1]
    · simp at h; simp [← h.1]

theorem idLowerCaseTail_restore (env : CheckEnv) (docPath : String) (st : CheckState)
    (q : UiQualifiedId) (loc : SourceLocation) (id : String) (statement : Option Stmt)
    (st' : CheckState) (b : Bool)
    (h : idLowerCaseTail env docPath st q loc id statement = .ok (st', b)) :
    st'.chain = st.chain ∧ st'.savedChains = st.savedChains := by
  unfold idLowerCaseTail at h
  split at h
  · simp at h; simp [← h.1, appendMsg]
  · exact scriptBindingRest_restore env docPath st q statement st' b h

theorem visitUiScriptBinding_restore (env : CheckEnv) (docPath : String) (st : CheckState)
    (qualifiedId : Option UiQualifiedId) (statement : Option Stmt)
    (st' : CheckState) (b : Bool)
    (h : visitUiScriptBinding env docPath st qualifiedId statement = .ok (st', b)) :
    st'.chain = st.chain ∧ st'.savedChains = st.savedChains := by
  unfold visitUiScriptBinding at h
  split at h
  · simp at h
  · rename_i q
    split at h
    · simp at h
    · rename_i nm hnm
      split at h
      · split at h
        · simp at h; simp [← h.1]
        · rename_i s
          dsimp only at h
          split at h
          · rename_i fl ll e
            split at h
            · simp at h
            · rename_i idText
              have := idLowerCaseTail_restore env docPath st q _ idText _ st' b h
              exact this
            · rename_i sv
              have := idLowerCaseTail_restore env docPath _ q _ sv _ st' b h
              rcases this with ⟨h1, h2⟩
              simp [appendMsg] at h1 h2
              exact ⟨h1, h2⟩
            · simp at h; simp [← h.1, appendMsg]
          · simp at h; simp [← h.1, appendMsg]
      · exact scriptBindingRest_restore env docPath st q statement st' b h

theorem visitQmlObjectPre_inl (env : CheckEnv) (st : CheckState)
    (typeId : Option UiQualifiedId) (st1 : CheckState)
    (h : visitQmlObjectPre env st typeId = .ok (.inl st1)) :
    st1.chain = st.chain ∧ st1.savedChains = st.savedChains := by
  unfold visitQmlObjectPre at h
  split at h
  · simp at h
  · rename_i tid
    split at h
    · simp at h
    · split at h
      · simp at h
      · split at h
        · simp at h; simp [← h]
        · dsimp only at h
          split at h
          · simp at h
          · split at h <;> simp at h

theorem visitQmlObjectPre_inr (env : CheckEnv) (st : CheckState)
    (typeId : Option UiQualifiedId) (st2 : CheckState)
    (h : visitQmlObjectPre env st typeId = .ok (.inr st2)) :
    st2.savedChains = st.chain :: st.savedChains := by
  unfold visitQmlObjectPre at h
  split at h
  · simp at h
  · rename_i tid
    split at h
    · simp at h
    · split at h
      · simp at h
      · split at h
        · simp at h
        · dsimp only at h
          split at h
          · simp at h
            simp [← h, scopePush]
          · split at h <;>
              (simp at h; simp [← h, appendMsg, scopePush])

mutual
theorem checkExp_restore (env : CheckEnv) (st : CheckState) (e : Exp) (st' : CheckState)
    (h : checkExp env st e = .ok st') :
    st'.chain = st.chain ∧ st'.savedChains = st.savedChains := by
  cases e with
  | identifierExpr n => simp [checkExp] at h; simp [← h]
  | stringLit v => simp [checkExp] at h; simp [← h]
  | numericLit => simp [checkExp] at h; simp [← h]
  | trueLit => simp [checkExp] at h; simp [← h]
  | falseLit => simp [checkExp] at h; simp [← h]
  | unaryMinus sub => exact checkExp_restore env st sub st' h
  | fieldMember base n => exact checkExp_restore env st base st' h
  | functionExpr body =>
    simp only [checkExp] at h
    cases hb : checkStmtList env (scopePush env st) body with
    | error f => rw [hb] at h; simp at h
    | ok st2 =>
      rw [hb] at h
      simp at h
      have ih := checkStmtList_restore env (scopePush env st) body st2 hb
      subst h
      rcases ih with ⟨h1, h2⟩
      simp [scopePush] at h1 h2
      simp [scopePop, h2]
  | otherExp children => exact checkExpList_restore env st children st' h

theorem checkExpList_restore (env : CheckEnv) (st : CheckState) (l : ExpList) (st' : CheckState)
    (h : checkExpList env st l = .ok st') :
    st'.chain = st.chain ∧ st'.savedChains = st.savedChains := by
  cases l with
  | nil => simp [checkExpList] at h; simp [← h]
  | cons hd tl =>
    simp only [checkExpList] at h
    cases he : checkExp env st hd with
    | error f => rw [he] at h; simp at h
    | ok st1 =>
      rw [he] at h
      have ih1 := checkExp_restore env st hd st1 he
      have ih2 := checkExpList_restore env st1 tl st' h
      exact ⟨ih2.1.trans ih1.1, ih2.2.trans ih1.2⟩

theorem checkStmt_restore (env : CheckEnv) (st : CheckState) (s : Stmt) (st' : CheckState)
    (h : checkStmt env st s = .ok st') :
    st'.chain = st.chain ∧ st'.savedChains = st.savedChains := by
  cases s with
  | expressionStatement a b e => exact checkExp_restore env st e st' h
  | functionDeclStmt a b body =>
    simp only [checkStmt] at h
    cases hb : checkStmtList env (scopePush env st) body with
    | error f => rw [hb] at h; simp at h
    | ok st2 =>
      rw [hb] at h
      simp at h
      have ih := checkStmtList_restore env (scopePush env st) body st2 hb
      subst h
      rcases ih with ⟨h1, h2⟩
      simp [scopePush] at h1 h2
      simp [scopePop, h2]
  | otherStmt a b children => exact checkStmtList_restore env st children st' h

theorem checkStmtList_restore (env : CheckEnv) (st : CheckState) (l : StmtList) (st' : CheckState)
    (h : checkStmtList env st l = .ok st') :
    st'.chain = st.chain ∧ st'.savedChains = st.savedChains := by
  cases l with
  | nil => simp [checkStmtList] at h; simp [← h]
  | cons hd tl =>
    simp only [checkStmtList] at h
    cases he : checkStmt env st hd with
    | error f => rw [he] at h; simp at h
    | ok st1 =>
      rw [he] at h
      have ih1 := checkStmt_restore env st hd st1 he
      have ih2 := checkStmtList_restore env st1 tl st' h
      exact ⟨ih2.1.trans ih1.1, ih2.2.trans ih1.2⟩
end

mutual
theorem checkMember_restore (env : CheckEnv) (docPath : String) (st : CheckState)
    (m : UiObjectMember) (st' : CheckState) (h : checkMember env docPath st m = .ok st') :
    st'.chain = st.chain ∧ st'.savedChains = st.savedChains := by
  cases m with
  | uiObjectDefinition typeId initMembers =>
    simp only [checkMember] at h
    cases hv : visitQmlObjectPre env st typeId with
    | error f => rw [hv] at h; simp at h
    | ok r =>
      cases r with
      | inl st1 =>
        rw [hv] at h
        simp at h
        subst h
        exact visitQmlObjectPre_inl env st typeId _ hv
      | inr st2 =>
        rw [hv] at h
        simp only at h
        cases hl : checkMemberList env docPath st2 initMembers with
        | error f => rw [hl] at h; simp at h
        | ok st3 =>
          rw [hl] at h
          simp at h
          subst h
          have h2 := visitQmlObjectPre_inr env st typeId st2 hv
          have h3 := checkMemberList_restore env docPath st2 initMembers st3 hl
          have hs : st3.savedChains = st.chain :: st.savedChains := h3.2.trans h2
          simp [scopePop, hs]
  | uiObjectBinding qid typeId initMembers =>
    simp only [checkMember] at h
    cases hv : visitQmlObjectPre env
        { st with messages := st.messages ++ (checkScopeObjectMember st.chain qid).2 } typeId with
    | error f => rw [hv] at h; simp at h
    | ok r =>
      cases r with
      | inl st1 =>
        rw [hv] at h
        simp at h
        subst h
        have := visitQmlObjectPre_inl env _ typeId _ hv
        simpa using this
      | inr st2 =>
        rw [hv] at h
        simp only at h
        cases hl : checkMemberList env docPath st2 initMembers with
        | error f => rw [hl] at h; simp at h
        | ok st3 =>
          rw [hl] at h
          simp at h
          subst h
          have h2 := visitQmlObjectPre_inr env _ typeId st2 hv
          have h3 := checkMemberList_restore env docPath st2 initMembers st3 hl
          simp only at h2
          have hs : st3.savedChains = st.chain :: st.savedChains := h3.2.trans h2
          simp [scopePop, hs]
  | uiScriptBinding qid stmt =>
    simp only [checkMember] at h
    cases hv : visitUiScriptBinding env docPath st qid stmt with
    | error f => rw [hv] at h; simp at h
    | ok p =>
      obtain ⟨st1, descend⟩ := p
      rw [hv] at h
      simp only at h
      have h1 := visitUiScriptBinding_restore env docPath st qid stmt st1 descend hv
      by_cases hd : descend = true
      · rw [hd] at h
        simp only [if_pos rfl] at h
        cases stmt with
        | none =>
          simp at h
          subst h
          exact h1
        | some s =>
          simp only at h
          have h2 := checkStmt_restore env st1 s st' h
          exact ⟨h2.1.trans h1.1, h2.2.trans h1.2⟩
      · have hd' : descend = false := by
          cases descend
          · rfl
          · exact absurd rfl hd
        rw [hd'] at h
        simp at h
        subst h
        exact h1
  | uiArrayBinding qid members =>
    simp only [checkMember] at h
    have h2 := checkMemberList_restore env docPath
      { st with messages := st.messages ++ (checkScopeObjectMember st.chain qid).2 }
      members st' h
    simpa using h2
  | otherMember =>
    simp [checkMember] at h
    simp [← h]

theorem checkMemberList_restore (env : CheckEnv) (docPath : String) (st : CheckState)
    (l : UiObjectMemberList) (st' : CheckState)
    (h : checkMemberList env docPath st l = .ok st') :
    st'.chain = st.chain ∧ st'.savedChains = st.savedChains := by
  cases l with
  | nil => simp [checkMemberList] at h; simp [← h]
  | cons hd tl =>
    simp only [checkMemberList] at h
    cases he : checkMember env docPath st hd with
    | error f => rw [he] at h; simp at h
    | ok st1 =>
      rw [he] at h
      have ih1 := checkMember_restore env docPath st hd st1 he
      have ih2 := checkMemberList_restore env docPath st1 tl st' h
      exact ⟨ih2.1.trans ih1.1, ih2.2.trans ih1.2⟩
end

theorem checkRun_restore (env : CheckEnv) (st : CheckState) (doc : Doc)
    (msgs : List DiagnosticMessage) (st' : CheckState)
    (h : checkRun env st doc = .ok (msgs, st')) :
    st'.chain = st.chain ∧ st'.savedChains = st.savedChains := by
  unfold checkRun at h
  dsimp only at h
  split at h
  · simp at h
    simp [← h.2]
  · rename_i prog heq
    cases hl : checkMemberList env doc.path { st with messages := [] } prog.members with
    | error f => rw [hl] at h; simp at h
    | ok st1 =>
      rw [hl] at h
      simp at h
      have h2 := checkMemberList_restore env doc.path _ prog.members st1 hl
      simp at h2
      rw [← h.2]
      exact h2

/-! ## Claim theorems -/

/-- Claim C1 (code bug): the claim states that when the external expression
evaluation yields no value the compatibility check is skipped and
contributes no diagnostic.  The code does not skip it: under the evaluator
env0 that yields no value, a binding whose left-hand property is an
anchor-line value dereferences the absent right-hand value and faults, and
a binding whose left-hand property is a plain number still emits the
syntax-based diagnostic "numerical value expected". -/
theorem c1_missing_rhs_value_not_skipped :
    checkMember env0 "" stAnchor
      (.uiScriptBinding (some { name := some "x", identifierToken := tok0, next := [] })
        (some (.expressionStatement tok0 tok0 .numericLit))) = .error .nullDeref ∧
    checkMember env0 "" stNum
      (.uiScriptBinding (some { name := some "n", identifierToken := tok0, next := [] })
        (some (.expressionStatement tok0 tok0 .trueLit))) =
      .ok { stNum with messages :=
        [{ kind := .Error, loc := locationFromRange tok0 tok0,
           message := "numerical value expected" }] } :=
  ⟨rfl, rfl⟩

/-- Claim C2 (code bug): the claim states that every checker operation
checks for missing names and nodes before dereferencing them.  It does not:
an object element whose qualified type name has a missing first-segment
name faults (null dereference in Check::visitQmlObject, line 239), one with
an empty first-segment name faults (out-of-range character access), and a
script binding whose qualified id name is missing faults (null dereference
in Check::visit(UiScriptBinding), line 266). -/
theorem c2_malformed_tree_faults :
    checkRun env0 stNum
      { ast := some { members := .cons (.uiObjectDefinition
          (some { name := none, identifierToken := tok0, next := [] }) .nil) .nil },
        path := "" } = .error .nullDeref ∧
    checkRun env0 stNum
      { ast := some { members := .cons (.uiObjectDefinition
          (some { name := some "", identifierToken := tok0, next := [] }) .nil) .nil },
        path := "" } = .error .charOutOfRange ∧
    checkMember env0 "" stNum
      (.uiScriptBinding (some { name := none, identifierToken := tok0, next := [] })
        (some (.expressionStatement tok0 tok0 .numericLit))) = .error .nullDeref :=
  ⟨rfl, rfl, rfl⟩

/-- Claim C3: for a script binding of the single segment `id` with a bare
expression statement, a lower-case identifier produces no diagnostic; a
lower-case string literal produces exactly one Warning "using string
literals for ids is discouraged"; an upper-case identifier produces exactly
one Error "ids must be lower case"; and any expression that is neither an
identifier reference nor a string literal produces exactly one Error
"expected id". -/
theorem c3_id_binding_diagnostics :
    ∀ (env : CheckEnv) (docPath : String) (st : CheckState) (tok fl ll : SourceLocation),
      (∀ name : String, name.isEmpty = false → name.front.isLower = true →
        checkMember env docPath st (.uiScriptBinding
          (some { name := some "id", identifierToken := tok, next := [] })
          (some (.expressionStatement fl ll (.identifierExpr (some name))))) = .ok st) ∧
      (∀ s : String, s.isEmpty = false → s.front.isLower = true →
        checkMember env docPath st (.uiScriptBinding
          (some { name := some "id", identifierToken := tok, next := [] })
          (some (.expressionStatement fl ll (.stringLit s)))) =
        .ok { st with messages := st.messages ++
          [warningMessage (locationFromRange fl ll)
            ("using string literals for ids is discouraged")] }) ∧
      (∀ name : String, name.isEmpty = false → name.front.isUpper = true →
        checkMember env docPath st (.uiScriptBinding
          (some { name := some "id", identifierToken := tok, next := [] })
          (some (.expressionStatement fl ll (.identifierExpr (some name))))) =
        .ok { st with messages := st.messages ++
          [errorMessage (locationFromRange fl ll) ("ids must be lower case")] }) ∧
      (∀ e : Exp, e.isIdOrStringLit = false →
        checkMember env docPath st (.uiScriptBinding
          (some { name := some "id", identifierToken := tok, next := [] })
          (some (.expressionStatement fl ll e))) =
        .ok { st with messages := st.messages ++
          [errorMessage (locationFromRange fl ll) ("expected id")] }) := by
  intro env docPath st tok fl ll
  refine ⟨?_, ?_, ?_, ?_⟩
  · intro name h1 h2
    simp only [checkMember, visitUiScriptBinding, idLowerCaseTail, scriptBindingRest]
    simp [h1, h2, checkScopeObjectMember_single_id, checkStmt, checkExp,
      Stmt.firstLoc, Stmt.lastLoc]
  · intro s h1 h2
    simp only [checkMember, visitUiScriptBinding, idLowerCaseTail, scriptBindingRest]
    simp [h1, h2, checkScopeObjectMember_single_id, checkStmt, checkExp,
      Stmt.firstLoc, Stmt.lastLoc, appendMsg]
  · intro name h1 h2
    have h3 := isLower_eq_false_of_isUpper name.front h2
    simp only [checkMember, visitUiScriptBinding, idLowerCaseTail, scriptBindingRest]
    simp [h1, h3, Stmt.firstLoc, Stmt.lastLoc, appendMsg]
  · intro e he
    cases e with
    | identifierExpr n => simp [Exp.isIdOrStringLit] at he
    | stringLit v => simp [Exp.isIdOrStringLit] at he
    | numericLit =>
      simp [checkMember, visitUiScriptBinding, Stmt.firstLoc, Stmt.lastLoc, appendMsg]
    | trueLit =>
      simp [checkMember, visitUiScriptBinding, Stmt.firstLoc, Stmt.lastLoc, appendMsg]
    | falseLit =>
      simp [checkMember, visitUiScriptBinding, Stmt.firstLoc, Stmt.lastLoc, appendMsg]
    | unaryMinus sub =>
      simp [checkMember, visitUiScriptBinding, Stmt.firstLoc, Stmt.lastLoc, appendMsg]
    | fieldMember base n =>
      simp [checkMember, visitUiScriptBinding, Stmt.firstLoc, Stmt.lastLoc, appendMsg]
    | functionExpr body =>
      simp [checkMember, visitUiScriptBinding, Stmt.firstLoc, Stmt.lastLoc, appendMsg]
    | otherExp children =>
      simp [checkMember, visitUiScriptBinding, Stmt.firstLoc, Stmt.lastLoc, appendMsg]

/-- Witness for C3: the four id-binding shapes at concrete inputs. -/
theorem c3_id_binding_diagnostics_witness :
    checkMember env0 "" stNum (.uiScriptBinding qidIdC3
      (some (.expressionStatement tok0 tok0 (.identifierExpr (some "foo"))))) = .ok stNum ∧
    checkMember env0 "" stNum (.uiScriptBinding qidIdC3
      (some (.expressionStatement tok0 tok0 (.stringLit "foo")))) =
      .ok { stNum with messages := stNum.messages ++
        [warningMessage (locationFromRange tok0 tok0)
          ("using string literals for ids is discouraged")] } ∧
    checkMember env0 "" stNum (.uiScriptBinding qidIdC3
      (some (.expressionStatement tok0 tok0 (.identifierExpr (some "Foo"))))) =
      .ok { stNum with messages := stNum.messages ++
        [errorMessage (locationFromRange tok0 tok0) ("ids must be lower case")] } ∧
    checkMember env0 "" stNum (.uiScriptBinding qidIdC3
      (some (.expressionStatement tok0 tok0 .numericLit))) =
      .ok { stNum with messages := stNum.messages ++
        [errorMessage (locationFromRange tok0 tok0) ("expected id")] } := by
  have T := c3_id_binding_diagnostics env0 "" stNum tok0 tok0 tok0
  exact ⟨T.1 "foo" rfl rfl, T.2.1 "foo" rfl rfl, T.2.2.1 "Foo" rfl rfl,
         T.2.2.2 Exp.numericLit rfl⟩

/-- Claim C4: the color-parsing function obeys the bit-exact contract of
the spec (the source function equals the contract stated from the spec
text on every string); "#80FF0000" parses to the valid color with RGB
FF0000 and alpha 128, and "#ZZFF0000" yields an invalid color. -/
theorem c4_color_parsing_contract :
    (∀ s : String, toQColor s = toQColorSpec s) ∧
    toQColor "#80FF0000" =
      { valid := true, red := 255, green := 0, blue := 0, alpha := 128 } ∧
    (toQColor "#ZZFF0000").valid = false :=
  ⟨toQColor_eq_spec, by decide, by decide⟩

/-- Witness for C4: the contract equivalence applied at a concrete string. -/
theorem c4_color_parsing_contract_witness :
    toQColor "#80FF0000" = toQColorSpec "#80FF0000" :=
  c4_color_parsing_contract.1 "#80FF0000"

/-- Counterexample to C5 as stated: the first segment Abc of the chain
Abc.b.c resolves in the scope-object search to a non-object (string) value,
yet the resolver emits no diagnostic at all (it treats the capitalized
segment as an attached property and returns none after the first-segment
lookup), not exactly one Error about members. -/
theorem c5_counterexample_attached_nonobject :
    lookupScope chainC5.qmlScopeObjects "Abc" = some Value.stringValue ∧
    Value.stringValue.asObjectValue = none ∧
    checkScopeObjectMember chainC5
      (some { name := some "Abc", identifierToken := tok0,
              next := [{ name := some "b", identifierToken := tok0 },
                       { name := some "c", identifierToken := tok0 }] }) = (none, []) :=
  ⟨rfl, rfl, rfl⟩

/-- Claim C5 (amended): for a member chain a.b.c whose first segment is not
an attached property (does not start with an upper-case letter) and
resolves in the scope-object search to a non-object value, the resolver
emits exactly one Error "a does not have members" and stops, returning
none, with no diagnostics about the later segments. -/
theorem c5_nonobject_first_segment_error :
    ∀ (chain : ScopeChain) (tok1 : SourceLocation) (n1 : String)
      (s2 s3 : UiQualifiedIdSeg) (rest : List UiQualifiedIdSeg) (v : Value),
      chain.qmlScopeObjects.isEmpty = false →
      (!(n1.isEmpty) && n1.front.isUpper) = false →
      lookupScope chain.qmlScopeObjects n1 = some v →
      v.asObjectValue = none →
      checkScopeObjectMember chain
        (some { name := some n1, identifierToken := tok1, next := s2 :: s3 :: rest }) =
      (none, [errorMessage tok1 ("\x27" ++ n1 ++ "\x27 does not have members")]) := by
  intro chain tok1 n1 s2 s3 rest v h0 hatt hl hobj
  unfold checkScopeObjectMember
  rw [h0]
  simp only [Bool.false_eq_true, if_false]
  have hnid : ¬(n1 = "id" ∧ (List.isEmpty (s2 :: s3 :: rest)) = true) := by
    rintro ⟨_, hc⟩
    simp [List.isEmpty] at hc
  simp only [if_neg hnid]
  simp only [hatt, Bool.false_eq_true, if_false, h0]
  rw [hl]
  simp only [memberLoop, Option.some_bind, hobj]
  simp

/-- Witness for C5: the amended statement at a concrete chain a.b.c. -/
theorem c5_nonobject_first_segment_error_witness :
    checkScopeObjectMember chainC5w
      (some { name := some "a", identifierToken := tok0,
              next := [{ name := some "b", identifierToken := tok0 },
                       { name := some "c", identifierToken := tok0 }] }) =
    (none, [errorMessage tok0 ("\x27a\x27 does not have members")]) :=
  c5_nonobject_first_segment_error chainC5w tok0 "a"
    { name := some "b", identifierToken := tok0 }
    { name := some "c", identifierToken := tok0 } [] Value.stringValue rfl rfl rfl rfl

/-- Counterexample to C6 as stated: one resolver call on the dotted id a.b
whose first segment matches no scope object appends two diagnostics, not at
most one. -/
theorem c6_counterexample_two_diagnostics :
    (checkScopeObjectMember chainC6 qidC6).2 =
    [{ kind := .Error, loc := tok0, message := "\x27a\x27 is not a valid property name" },
     { kind := .Error, loc := tok0, message := "\x27a\x27 does not have members" }] :=
  rfl

/-- Claim C6 (amended): every resolver call appends at most one diagnostic,
except that a call on a dotted id whose non-attached first segment matches
no scope object always appends exactly two (first "not a valid property
name", then "does not have members"); every compatibility-check call
contributes at most one diagnostic. -/
theorem c6_diagnostics_per_call :
    (∀ (chain : ScopeChain) (tok : SourceLocation) (n : String)
        (s2 : UiQualifiedIdSeg) (r : List UiQualifiedIdSeg),
      chain.qmlScopeObjects.isEmpty = false →
      (!(n.isEmpty) && n.front.isUpper) = false →
      lookupScope chain.qmlScopeObjects n = none →
      (checkScopeObjectMember chain
          (some { name := some n, identifierToken := tok, next := s2 :: r })).2 =
        [errorMessage tok ("\x27" ++ n ++ "\x27 is not a valid property name"),
         errorMessage tok ("\x27" ++ n ++ "\x27 does not have members")]) ∧
    (∀ (chain : ScopeChain) (id : Option UiQualifiedId),
      ¬(∃ q n, id = some q ∧ q.name = some n ∧ q.next ≠ [] ∧
          (!(n.isEmpty) && n.front.isUpper) = false ∧
          lookupScope chain.qmlScopeObjects n = none ∧
          chain.qmlScopeObjects.isEmpty = false) →
      (checkScopeObjectMember chain id).2.length ≤ 1) ∧
    (∀ (env : CheckEnv) (docPath : String) (loc : SourceLocation)
        (lhs rhs : Option Value) (ast : Exp) (m : DiagnosticMessage),
      assignmentCheck env docPath loc lhs rhs ast = .ok m → m.toList.length ≤ 1) := by
  refine ⟨?_, ?_, ?_⟩
  · intro chain tok n s2 r h0 hatt hl
    unfold checkScopeObjectMember
    rw [h0]
    simp only [Bool.false_eq_true, if_false]
    have hnid : ¬(n = "id" ∧ (List.isEmpty (s2 :: r)) = true) := by
      rintro ⟨_, hc⟩
      simp [List.isEmpty] at hc
    simp only [if_neg hnid]
    simp only [hatt, Bool.false_eq_true, if_false, h0]
    rw [hl]
    simp [memberLoop]
  · intro chain id hne
    by_cases h0 : chain.qmlScopeObjects.isEmpty = true
    · simp [checkScopeObjectMember, h0]
    · rw [Bool.not_eq_true] at h0
      cases id with
      | none => simp [checkScopeObjectMember, h0]
      | some q =>
        obtain ⟨qname, qtok, qnext⟩ := q
        cases qname with
        | none => simp [checkScopeObjectMember, h0]
        | some n =>
          by_cases hid : n = "id" ∧ (List.isEmpty qnext) = true
          · simp [checkScopeObjectMember, h0, hid]
          · by_cases hatt : (!(n.isEmpty) && n.front.isUpper) = true
            · unfold checkScopeObjectMember
              rw [h0]
              simp only [Bool.false_eq_true, if_false, if_neg hid, hatt, if_true]
              cases hqt : chain.qmlTypes with
              | none =>
                rw [h0]
                simp only [Bool.false_eq_true, if_false]
                cases hl : lookupScope chain.qmlScopeObjects n <;> simp [hl]
              | some t =>
                have happ : (chain.qmlScopeObjects ++ [t]).isEmpty = false := by
                  cases hc : chain.qmlScopeObjects with
                  | nil => rw [hc] at h0; simp at h0
                  | cons a b => simp
                simp only [happ, Bool.false_eq_true, if_false]
                cases hl : lookupScope (chain.qmlScopeObjects ++ [t]) n <;> simp [hl]
            · rw [Bool.not_eq_true] at hatt
              cases hl : lookupScope chain.qmlScopeObjects n with
              | some v =>
                unfold checkScopeObjectMember
                rw [h0]
                simp only [Bool.false_eq_true, if_false, if_neg hid, hatt, h0, hl]
                simp only [List.nil_append]
                exact memberLoop_len_le n qtok (some v) qnext
              | none =>
                cases qnext with
                | nil =>
                  simp only [checkScopeObjectMember, h0, hatt, hl]
                  split <;> simp [memberLoop, h0, hl]
                | cons s2 r =>
                  exact absurd
                    ⟨{ name := some n, identifierToken := qtok, next := s2 :: r }, n,
                      rfl, rfl, by simp, hatt, hl, h0⟩ hne
  · intro env docPath loc lhs rhs ast m hm
    unfold DiagnosticMessage.toList
    split <;> simp

/-- Witness for C6: the exactly-two case at the concrete unresolved dotted
id a.b, the at-most-one bound at a concrete single-segment call, and the
compatibility-check bound at a concrete call. -/
theorem c6_diagnostics_per_call_witness :
    (checkScopeObjectMember chainC6 qidC6).2 =
      [errorMessage tok0 ("\x27a\x27 is not a valid property name"),
       errorMessage tok0 ("\x27a\x27 does not have members")] ∧
    (checkScopeObjectMember chainC6
      (some { name := some "a", identifierToken := tok0, next := [] })).2.length ≤ 1 ∧
    ({ kind := .Error, loc := tok0, message := "" } : DiagnosticMessage).toList.length ≤ 1 :=
  ⟨c6_diagnostics_per_call.1 chainC6 tok0 "a"
      { name := some "b", identifierToken := tok0 } [] rfl rfl rfl,
   c6_diagnostics_per_call.2.1 chainC6
      (some { name := some "a", identifierToken := tok0, next := [] })
      (by
        rintro ⟨q, n, heq, hn, hnext, hrest⟩
        injection heq with he
        subst he
        exact hnext rfl),
   c6_diagnostics_per_call.2.2 env0 "" tok0 none none Exp.numericLit
      { kind := .Error, loc := tok0, message := "" } rfl⟩

/-- Claim C7: for a qualified id whose non-empty first segment name starts
with an upper-case letter, the resolver searches the scope objects
augmented with the attached-types bag, diagnoses "not a valid property
name" exactly when that search fails, and returns none regardless of the
outcome and of any further dotted segments (which it never traverses). -/
theorem c7_attached_property_resolution :
    ∀ (chain : ScopeChain) (t : ObjVal) (tok : SourceLocation) (n : String)
      (nextSegs : List UiQualifiedIdSeg),
      chain.qmlScopeObjects.isEmpty = false →
      chain.qmlTypes = some t →
      n.isEmpty = false →
      n.front.isUpper = true →
      checkScopeObjectMember chain
        (some { name := some n, identifierToken := tok, next := nextSegs }) =
      (none,
        match lookupScope (chain.qmlScopeObjects ++ [t]) n with
        | some _ => []
        | none => [errorMessage tok ("\x27" ++ n ++ "\x27 is not a valid property name")]) := by
  intro chain t tok n nextSegs h0 ht h3 h4
  have hnid : ¬(n = "id" ∧ (List.isEmpty nextSegs) = true) := by
    rintro ⟨he, _⟩
    subst he
    exact absurd h4 (by decide)
  unfold checkScopeObjectMember
  rw [h0]
  simp only [Bool.false_eq_true, if_false]
  simp only [if_neg hnid]
  rw [ht]
  simp only [h3, h4, Bool.not_false, Bool.true_and]
  have happ : (chain.qmlScopeObjects ++ [t]).isEmpty = false := by
    cases hc : chain.qmlScopeObjects with
    | nil => rw [hc] at h0; simp at h0
    | cons a b => simp
  simp only [if_true, happ, Bool.false_eq_true, if_false]
  cases hl : lookupScope (chain.qmlScopeObjects ++ [t]) n <;> simp [hl]

/-- Witness for C7: the attached lookup Keys.onPressed at a concrete chain
whose attached-types bag contains Keys — no diagnostic, result none, no
traversal of onPressed. -/
theorem c7_attached_property_resolution_witness :
    checkScopeObjectMember chainC7
      (some { name := some "Keys", identifierToken := tok0,
              next := [{ name := some "onPressed", identifierToken := tok0 }] }) =
    (none, []) :=
  c7_attached_property_resolution chainC7 ("T", [("Keys", Value.objectValue ("K") [])])
    tok0 "Keys" [{ name := some "onPressed", identifierToken := tok0 }] rfl rfl rfl rfl

/-- Claim C8: whenever a full checker run completes, the scope-chain depth
(the scope builder's stack of saved chains) equals its pre-traversal depth,
and the scope chain itself is restored, for any input tree. -/
theorem c8_scope_push_pop_balance :
    ∀ (env : CheckEnv) (st : CheckState) (doc : Doc)
      (msgs : List DiagnosticMessage) (st' : CheckState),
      checkRun env st doc = .ok (msgs, st') →
      st'.savedChains.length = st.savedChains.length ∧ st'.chain = st.chain := by
  intro env st doc msgs st' h
  have r := checkRun_restore env st doc msgs st' h
  exact ⟨by rw [r.2], r.1⟩

/-- Witness for C8: balance of a completed run on a concrete document. -/
theorem c8_scope_push_pop_balance_witness :
    stNum.savedChains.length = stNum.savedChains.length ∧ stNum.chain = stNum.chain :=
  c8_scope_push_pop_balance env0 stNum docC8 [] stNum rfl

/-- Claim C9: a second checker invocation on the same document and the
state left by a completed first invocation yields the identical ordered
diagnostic list (and the identical final state). -/
theorem c9_checker_run_idempotent :
    ∀ (env : CheckEnv) (st : CheckState) (doc : Doc)
      (msgs : List DiagnosticMessage) (st' : CheckState),
      checkRun env st doc = .ok (msgs, st') →
      checkRun env st' doc = .ok (msgs, st') := by
  intro env st doc msgs st' h
  have r := checkRun_restore env st doc msgs st' h
  have hst : ({ st' with messages := ([] : List DiagnosticMessage) } : CheckState) =
      { st with messages := [] } := by
    obtain ⟨m1, c1, s1⟩ := st
    obtain ⟨m2, c2, s2⟩ := st'
    simp only at r
    simp [r.1, r.2]
  unfold checkRun at h ⊢
  dsimp only at h ⊢
  rw [hst]
  exact h

/-- Witness for C9: a completed concrete run re-run from its final state. -/
theorem c9_checker_run_idempotent_witness :
    checkRun env0 stNum docC8 = .ok ([], stNum) :=
  c9_checker_run_idempotent env0 stNum docC8 [] stNum rfl

/-- Claim C10: a binding of the single segment `id` to a string literal
whose text is non-empty and does not start with a lower-case letter
appends exactly two diagnostics in order: first the Warning "using string
literals for ids is discouraged", then the Error "ids must be lower case". -/
theorem c10_string_id_warning_then_error :
    ∀ (env : CheckEnv) (docPath : String) (st : CheckState) (tok fl ll : SourceLocation)
      (s : String), s.isEmpty = false → s.front.isLower = false →
      checkMember env docPath st (.uiScriptBinding
        (some { name := some "id", identifierToken := tok, next := [] })
        (some (.expressionStatement fl ll (.stringLit s)))) =
      .ok { st with messages := st.messages ++
        [warningMessage (locationFromRange fl ll)
          ("using string literals for ids is discouraged"),
         errorMessage (locationFromRange fl ll) ("ids must be lower case")] } := by
  intro env docPath st tok fl ll s h1 h2
  simp only [checkMember, visitUiScriptBinding, idLowerCaseTail]
  simp [h1, h2, Stmt.firstLoc, Stmt.lastLoc, appendMsg]

/-- Witness for C10: the binding id to the string literal "Foo". -/
theorem c10_string_id_warning_then_error_witness :
    checkMember env0 "" stNum (.uiScriptBinding qidIdC3
      (some (.expressionStatement tok0 tok0 (.stringLit "Foo")))) =
    .ok { stNum with messages := stNum.messages ++
      [warningMessage (locationFromRange tok0 tok0)
        ("using string literals for ids is discouraged"),
       errorMessage (locationFromRange tok0 tok0) ("ids must be lower case")] } :=
  c10_string_id_warning_then_error env0 "" stNum tok0 tok0 tok0 "Foo" rfl rfl
